import Mathlib

/-
  Verification of the annotation coordinate/zoom transform model and
  hit-testing engine of the Amar-PDF editor.

  The Python source is shallowly embedded: floats become rationals (ℚ),
  Python ints become ℤ, Qt collaborators (font metrics) become explicit
  oracle parameters, and the file-system effect of the doodle save path
  becomes explicit state passing over the list of existing files.
-/

namespace AmarPDF

/-! ## Constants (src/core/constants.py) -/

def BASE_SCALE : ℚ := 2
def MIN_ANNOTATION_SIZE : ℚ := 10
def MIN_FONT_SIZE : ℤ := 6
def MAX_FONT_SIZE : ℤ := 72
def DOODLE_PADDING : ℤ := 10
def TEXT_ANNOTATION_WIDTH_PADDING : ℤ := 10
def TEXT_ANNOTATION_HEIGHT_PADDING : ℤ := 6
def TEXT_ANNOTATION_Y_OFFSET : ℚ := 4

/-- Python `int(q)` on a real value: truncation toward zero. -/
def pyInt (q : ℚ) : ℤ := q.num.tdiv q.den

/-! ## Qt data types used by the source -/

/-- Qt `QRect(x, y, w, h)`; stores integer origin and extent. -/
structure QRect where
  x : ℤ
  y : ℤ
  w : ℤ
  h : ℤ
  deriving DecidableEq, Repr

/-- Qt `QRect.contains(px, py)` (non-proper) for rectangles of
nonnegative extent: the right edge is `x + w - 1`, the bottom `y + h - 1`. -/
def QRect.contains (r : QRect) (px py : ℤ) : Bool :=
  decide (r.x ≤ px ∧ px ≤ r.x + r.w - 1 ∧ r.y ≤ py ∧ py ≤ r.y + r.h - 1)

/-- A Qt font as built by `TextAnnotation.get_qfont`: family,
integer point size, and the four style flags. -/
structure QFont where
  family : String
  pointSize : ℤ
  bold : Bool
  italic : Bool
  underline : Bool
  strikeout : Bool
  deriving DecidableEq, Repr

/-- The Qt font-metrics collaborator (`QFontMetrics`): for a font it
yields `horizontalAdvance(text)` and `height()`, both integers. -/
structure FontMetrics where
  hAdvance : QFont → String → ℤ
  mHeight : QFont → ℤ

/-! ## Annotation data model (src/models/) -/

/-- One stroke of a doodle (src/models/drawing_data.py `Stroke`):
integer points, RGB color, pen width. -/
structure Stroke where
  points : List (ℤ × ℤ)
  color : ℤ × ℤ × ℤ
  width : ℤ
  deriving DecidableEq, Repr

/-- The text-specific fields of `TextAnnotation`. -/
structure TextFields where
  text : String
  font_family : String
  font_size : ℤ
  bold : Bool
  italic : Bool
  underline : Bool
  strikethrough : Bool
  color : ℤ × ℤ × ℤ
  deriving DecidableEq, Repr

/-- The variant payload distinguishing the three model classes. -/
inductive AnnKind where
  | text (tf : TextFields)
  | image (image_path : String) (pixmap_w pixmap_h : ℤ)
  | doodle (strokes : List Stroke)
  deriving DecidableEq, Repr

/-- The common fields of `Annotation` (src/models/annotation.py) plus
the variant payload.  `created_at_zoom` is set to `1.0` by
`Annotation.__init__` and later overwritten by the editor. -/
structure Annot where
  x : ℚ
  y : ℚ
  page_num : ℤ
  created_at_zoom : ℚ
  width : ℚ
  height : ℚ
  kind : AnnKind
  deriving DecidableEq, Repr

/-- `Annotation._get_zoom_ratio`. -/
def Annot.zoom_ratio (a : Annot) (current_zoom : ℚ) : ℚ :=
  current_zoom / a.created_at_zoom

/-- `Annotation._get_scaled_position`. -/
def Annot.scaled_position (a : Annot) (current_zoom : ℚ) : ℚ × ℚ :=
  (a.x * a.zoom_ratio current_zoom, a.y * a.zoom_ratio current_zoom)

/-- `TextAnnotation.get_qfont`: display font size is
`font_size * BASE_SCALE * zoom_level`, truncated by `QFont`'s int cast. -/
def get_qfont (tf : TextFields) (zoom_level : ℚ) : QFont :=
  { family := tf.font_family
    pointSize := pyInt (tf.font_size * BASE_SCALE * zoom_level)
    bold := tf.bold
    italic := tf.italic
    underline := tf.underline
    strikeout := tf.strikethrough }

/-- `TextAnnotation.update_bounds`: overwrites the stored `width` and
`height` from the display-font metrics plus the fixed paddings. -/
def update_bounds (M : FontMetrics) (a : Annot) (tf : TextFields) (zoom_level : ℚ) : Annot :=
  let f := get_qfont tf zoom_level
  { a with
    width := ((M.hAdvance f tf.text + TEXT_ANNOTATION_WIDTH_PADDING : ℤ) : ℚ)
    height := ((M.mHeight f + TEXT_ANNOTATION_HEIGHT_PADDING : ℤ) : ℚ) }

/-- `get_rect` of each variant: the display-space bounding `QRect` at
`current_zoom`, together with the (for Text, mutated) annotation. -/
def get_rect (M : FontMetrics) (a : Annot) (current_zoom : ℚ) : QRect × Annot :=
  match a.kind with
  | .text tf =>
    let sp := a.scaled_position current_zoom
    let a2 := update_bounds M a tf current_zoom
    (⟨pyInt sp.1, pyInt (sp.2 - a2.height + TEXT_ANNOTATION_Y_OFFSET),
      pyInt a2.width, pyInt a2.height⟩, a2)
  | .image _ _ _ =>
    let sp := a.scaled_position current_zoom
    (⟨pyInt sp.1, pyInt sp.2,
      pyInt (a.width * a.zoom_ratio current_zoom),
      pyInt (a.height * a.zoom_ratio current_zoom)⟩, a)
  | .doodle _ =>
    let sp := a.scaled_position current_zoom
    (⟨pyInt sp.1, pyInt sp.2,
      pyInt (a.width * a.zoom_ratio current_zoom),
      pyInt (a.height * a.zoom_ratio current_zoom)⟩, a)

/-- `Annotation.contains_point`: membership of the (integer) event point
in the display rectangle at the current zoom. -/
def contains_point (M : FontMetrics) (a : Annot) (px py : ℤ) (current_zoom : ℚ) : Bool :=
  ((get_rect M a current_zoom).1).contains px py

/-! ## Hit-testing (src/core/annotation_manager.py, src/ui/widgets/pdf_view_label.py) -/

/-- `AnnotationManager.get_annotations_for_page`. -/
def get_annotations_for_page (anns : List Annot) (page_num : ℤ) : List Annot :=
  anns.filter (fun a => decide (a.page_num = page_num))

/-- `AnnotationManager.find_annotation_at_point`: filter to the page,
then scan in reverse order returning the first hit. -/
def find_annotation_at_point (M : FontMetrics) (anns : List Annot)
    (px py page_num : ℤ) (zoom_level : ℚ) : Option Annot :=
  ((get_annotations_for_page anns page_num).reverse).find?
    (fun a => contains_point M a px py zoom_level)

/-- The annotation struck by `PDFViewLabel.mousePressEvent`: the loop
`for annotation in self.annotations` runs in forward insertion order and
acts on the first annotation containing the event point. -/
def press_hit (M : FontMetrics) (anns : List Annot)
    (px py : ℤ) (zoom_level : ℚ) : Option Annot :=
  anns.find? (fun a => contains_point M a px py zoom_level)

/-! ## Drag and resize steps (src/ui/widgets/pdf_view_label.py mouseMoveEvent) -/

/-- `core.enums.ResizeEdge`. -/
inductive ResizeEdge where
  | left
  | right
  | top
  | bottom
  deriving DecidableEq, Repr

/-- The state carried across one resize step: the annotation being
resized and `resize_start_pos` (the previous pointer position). -/
structure ResizeState where
  ann : Annot
  resize_start_pos : ℤ × ℤ
  deriving DecidableEq, Repr

/-- One step of the resize branch of `mouseMoveEvent`: compute the
pointer delta since `resize_start_pos`, convert to creation-space via
the zoom ratio, and apply it to the edge being dragged — only when the
resulting extent exceeds `MIN_ANNOTATION_SIZE`, in which case
`resize_start_pos` advances to the current event position. -/
def resize_move (st : ResizeState) (edge : ResizeEdge) (ex ey : ℤ) (zoom_level : ℚ) :
    ResizeState :=
  let a := st.ann
  let zr := zoom_level / a.created_at_zoom
  let dx : ℚ := ((ex - st.resize_start_pos.1 : ℤ) : ℚ)
  let dy : ℚ := ((ey - st.resize_start_pos.2 : ℤ) : ℚ)
  match edge with
  | .right =>
    let new_width := a.width + dx / zr
    if MIN_ANNOTATION_SIZE < new_width then
      ⟨{ a with width := new_width }, (ex, ey)⟩
    else st
  | .left =>
    let new_width := a.width - dx / zr
    if MIN_ANNOTATION_SIZE < new_width then
      ⟨{ a with x := a.x + dx / zr, width := new_width }, (ex, ey)⟩
    else st
  | .bottom =>
    let new_height := a.height + dy / zr
    if MIN_ANNOTATION_SIZE < new_height then
      ⟨{ a with height := new_height }, (ex, ey)⟩
    else st
  | .top =>
    let new_height := a.height - dy / zr
    if MIN_ANNOTATION_SIZE < new_height then
      ⟨{ a with y := a.y + dy / zr, height := new_height }, (ex, ey)⟩
    else st

/-- One step of the drag branch of `mouseMoveEvent`: the new position is
`(event - drag_offset) / zoom_ratio`, written into `x`/`y` only. -/
def drag_move (a : Annot) (drag_offset : ℤ × ℤ) (ex ey : ℤ) (zoom_level : ℚ) : Annot :=
  let zr := zoom_level / a.created_at_zoom
  let new_x := (((ex - drag_offset.1 : ℤ) : ℚ)) / zr
  let new_y := (((ey - drag_offset.2 : ℤ) : ℚ)) / zr
  { a with x := new_x, y := new_y }

/-- The drag offset captured by `mousePressEvent` when a drag starts:
`event - int(scaled position at the current zoom)`. -/
def press_drag_offset (a : Annot) (ex ey : ℤ) (zoom_level : ℚ) : ℤ × ℤ :=
  (ex - pyInt (a.scaled_position zoom_level).1,
   ey - pyInt (a.scaled_position zoom_level).2)

/-! ## Save-time PDF projection (src/operations/pdf_operations.py) -/

/-- A `fitz.Rect(x0, y0, x1, y1)`. -/
structure RectQ where
  x0 : ℚ
  y0 : ℚ
  x1 : ℚ
  y1 : ℚ
  deriving DecidableEq, Repr

/-- All intermediate values of the TextAnnotation branch of
`save_pdf_with_annotations` (lines 37-62): `base_pdf_x`/`base_pdf_y`
are the universal projections computed at lines 41-42 before the
text-specific adjustments; `pdf_x` and `baseline_y` are the final
insertion coordinates passed to `page.insert_text`. -/
structure TextProjection where
  base_pdf_x : ℚ
  base_pdf_y : ℚ
  pdf_x : ℚ
  height_pdf : ℚ
  rect_top : ℚ
  baseline_y : ℚ
  deriving DecidableEq, Repr

/-- The TextAnnotation branch, step by step as in the source.
`zoom_at_creation = getattr(annotation, 'created_at_zoom', 1.0)` always
finds the attribute, since the base constructor sets it. -/
def text_projection (a : Annot) : TextProjection :=
  let zoom_at_creation := a.created_at_zoom
  let pdf_x := a.x / (BASE_SCALE * zoom_at_creation)
  let pdf_y := a.y / (BASE_SCALE * zoom_at_creation)
  let x_padding_pdf : ℚ := 5 / BASE_SCALE
  let pdf_x2 := pdf_x + x_padding_pdf
  let height_pdf := a.height / BASE_SCALE
  let rect_top_original := pdf_y - height_pdf + TEXT_ANNOTATION_Y_OFFSET / BASE_SCALE
  let pdf_y2 := rect_top_original + height_pdf * (65 / 100)
  { base_pdf_x := pdf_x
    base_pdf_y := pdf_y
    pdf_x := pdf_x2
    height_pdf := height_pdf
    rect_top := rect_top_original
    baseline_y := pdf_y2 }

/-- The ImageAnnotation branch (lines 164-172): the `fitz.Rect` into
which the image is inserted. -/
def image_projection (a : Annot) : RectQ :=
  let zoom_at_creation := a.created_at_zoom
  let pdf_x := a.x / (BASE_SCALE * zoom_at_creation)
  let pdf_y := a.y / (BASE_SCALE * zoom_at_creation)
  let pdf_width := a.width / (BASE_SCALE * zoom_at_creation)
  let pdf_height := a.height / (BASE_SCALE * zoom_at_creation)
  ⟨pdf_x, pdf_y, pdf_x + pdf_width, pdf_y + pdf_height⟩

/-- The DoodleAnnotation branch (lines 180-188): same rectangle
computation, duplicated in the source. -/
def doodle_projection (a : Annot) : RectQ :=
  let zoom_at_creation := a.created_at_zoom
  let pdf_x := a.x / (BASE_SCALE * zoom_at_creation)
  let pdf_y := a.y / (BASE_SCALE * zoom_at_creation)
  let pdf_width := a.width / (BASE_SCALE * zoom_at_creation)
  let pdf_height := a.height / (BASE_SCALE * zoom_at_creation)
  ⟨pdf_x, pdf_y, pdf_x + pdf_width, pdf_y + pdf_height⟩

/-- Outcome of `page.insert_image` for the doodle branch. -/
inductive InsertResult where
  | ok
  | err (msg : String)
  deriving DecidableEq, Repr

/-- File-system effect of the doodle branch (lines 190-203), as the list
of files present: `tempfile.NamedTemporaryFile(delete=False)` creates
`temp_path`; if `page.insert_image` succeeds, `os.unlink(temp_path)`
runs; if it raises, the `except` clause catches the exception after the
unlink was skipped, so the temp file stays. -/
def doodle_save_files (fs : List String) (temp_path : String) (ins : InsertResult) :
    List String :=
  let fs1 := temp_path :: fs
  match ins with
  | .ok => fs1.erase temp_path
  | .err _ => fs1

/-! ## Construction and validation (src/models/) -/

/-- `TextFormat.__post_init__` validation (src/models/text_format.py):
font size against the configured min/max, then each color component
against 0-255.  The color tuple's length-3 check is enforced by the
type.  Error strings abbreviate the Python messages. -/
def text_format_validation (font_size : ℤ) (color : ℤ × ℤ × ℤ) : Except String Unit :=
  if decide (MIN_FONT_SIZE ≤ font_size ∧ font_size ≤ MAX_FONT_SIZE) then
    if decide (0 ≤ color.1 ∧ color.1 ≤ 255) then
      if decide (0 ≤ color.2.1 ∧ color.2.1 ≤ 255) then
        if decide (0 ≤ color.2.2 ∧ color.2.2 ≤ 255) then
          Except.ok ()
        else Except.error "Color components must be 0-255"
      else Except.error "Color components must be 0-255"
    else Except.error "Color components must be 0-255"
  else Except.error "Font size must be between 6 and 72"

/-- `TextAnnotation.__init__`: stores every argument unchecked, sets
`created_at_zoom := 1.0` (base class), and calls `update_bounds()` at
the default zoom 1.0.  There is no validation of any kind. -/
def text_annot_mk (M : FontMetrics) (x y : ℚ) (text : String) (page_num : ℤ)
    (font_family : String) (font_size : ℤ) (bold italic underline strikethrough : Bool)
    (color : ℤ × ℤ × ℤ) : Annot :=
  let tf : TextFields :=
    { text := text, font_family := font_family, font_size := font_size
      bold := bold, italic := italic, underline := underline
      strikethrough := strikethrough, color := color }
  let base : Annot :=
    { x := x, y := y, page_num := page_num, created_at_zoom := 1
      width := 0, height := 0, kind := .text tf }
  update_bounds M base tf 1

/-- All points of all strokes, in iteration order, as walked by the
double loop of `DoodleAnnotation._calculate_bounds`. -/
def all_points (strokes : List Stroke) : List (ℤ × ℤ) :=
  (strokes.map Stroke.points).flatten

/-- `DoodleAnnotation._calculate_bounds`: `(100, 100)` for an empty
stroke list, else the min/max sweep over all points followed by
`max(100, spread + DOODLE_PADDING * 2)` per axis.  The inner `[]` case
is unreachable in the application because `Stroke.__post_init__`
requires at least one point per stroke. -/
def calculate_bounds (strokes : List Stroke) : ℤ × ℤ :=
  if strokes.isEmpty then (100, 100)
  else
    match all_points strokes with
    | [] => (100, 100)
    | p :: ps =>
      let min_x := ps.foldl (fun m q => min m q.1) p.1
      let min_y := ps.foldl (fun m q => min m q.2) p.2
      let max_x := ps.foldl (fun m q => max m q.1) p.1
      let max_y := ps.foldl (fun m q => max m q.2) p.2
      (max 100 (max_x - min_x + DOODLE_PADDING * 2),
       max 100 (max_y - min_y + DOODLE_PADDING * 2))

/-- `ImageAnnotation.__init__` (src/models/image_annotation.py): if
either dimension argument is `None`, both fall back to the loaded
pixmap's native dimensions; otherwise both supplied values are used. -/
def image_annot_mk (x y : ℚ) (image_path : String) (pixmap_w pixmap_h : ℤ)
    (page_num : ℤ) (width height : Option ℚ) : Annot :=
  let dims : ℚ × ℚ :=
    if width.isNone || height.isNone then ((pixmap_w : ℚ), (pixmap_h : ℚ))
    else (width.getD 0, height.getD 0)
  { x := x, y := y, page_num := page_num, created_at_zoom := 1
    width := dims.1, height := dims.2, kind := .image image_path pixmap_w pixmap_h }

/-- `DoodleAnnotation.__init__` (src/models/doodle_annotation.py): if
either dimension argument is `None`, both fall back to
`_calculate_bounds()`; otherwise both supplied values are used. -/
def doodle_annot_mk (x y : ℚ) (page_num : ℤ) (strokes : List Stroke)
    (width height : Option ℚ) : Annot :=
  let dims : ℚ × ℚ :=
    if width.isNone || height.isNone then
      (((calculate_bounds strokes).1 : ℚ), ((calculate_bounds strokes).2 : ℚ))
    else (width.getD 0, height.getD 0)
  { x := x, y := y, page_num := page_num, created_at_zoom := 1
    width := dims.1, height := dims.2, kind := .doodle strokes }

/-! ## Concrete instances used by counterexamples and witnesses -/

/-- A trivial font-metrics oracle (every measurement 0). -/
def metrics0 : FontMetrics := ⟨fun _ _ => 0, fun _ => 0⟩

/-- A 100x100 image annotation at the origin of page 0, created at zoom 1. -/
def hitA1 : Annot :=
  { x := 0, y := 0, page_num := 0, created_at_zoom := 1, width := 100, height := 100
    kind := .image "a.png" 100 100 }

/-- A second, later-inserted annotation overlapping the first. -/
def hitA2 : Annot := { hitA1 with kind := .image "b.png" 100 100 }

/-- A resize state holding a 20x20 image annotation. -/
def c6_state : ResizeState :=
  ⟨{ x := 0, y := 0, page_num := 0, created_at_zoom := 1, width := 20, height := 20
     kind := .image "img.png" 20 20 }, (0, 0)⟩

/-- A single doodle stroke spanning (0,0)-(50,80). -/
def c9_strokes : List Stroke := [⟨[(0, 0), (50, 80)], (0, 0, 0), 2⟩]

/-! ## Helper lemmas -/

theorem find?_eq_head?_filter {α} (p : α → Bool) (l : List α) :
    l.find? p = (l.filter p).head? := by
  induction l with
  | nil => rfl
  | cons a l ih =>
    by_cases h : p a
    · rw [List.find?_cons_of_pos _ h]
      simp [List.filter_cons, h]
    · rw [List.find?_cons_of_neg _ (by simp_all), ih]
      simp [List.filter_cons, h]

theorem filter_reverse_comm {α} (p : α → Bool) (l : List α) :
    l.reverse.filter p = (l.filter p).reverse := by
  induction l with
  | nil => rfl
  | cons a l ih =>
    by_cases h : p a <;>
      simp [List.reverse_cons, List.filter_append, List.filter_cons, h, ih]

theorem reverse_find?_eq_getLast?_filter {α} (p : α → Bool) (l : List α) :
    l.reverse.find? p = (l.filter p).getLast? := by
  rw [find?_eq_head?_filter, filter_reverse_comm, List.head?_reverse]

theorem foldl_min_le_init (f : ℤ × ℤ → ℤ) (l : List (ℤ × ℤ)) (init : ℤ) :
    l.foldl (fun m q => min m (f q)) init ≤ init := by
  induction l generalizing init with
  | nil => exact le_refl _
  | cons a l ih => exact le_trans (ih _) (min_le_left _ _)

theorem foldl_min_le_of_mem (f : ℤ × ℤ → ℤ) (l : List (ℤ × ℤ)) (init : ℤ)
    (x : ℤ × ℤ) (hx : x ∈ l) :
    l.foldl (fun m q => min m (f q)) init ≤ f x := by
  induction l generalizing init with
  | nil => cases hx
  | cons a l ih =>
    rcases List.mem_cons.mp hx with h | h
    · subst h
      exact le_trans (foldl_min_le_init f l _) (min_le_right _ _)
    · exact ih _ h

theorem init_le_foldl_max (f : ℤ × ℤ → ℤ) (l : List (ℤ × ℤ)) (init : ℤ) :
    init ≤ l.foldl (fun m q => max m (f q)) init := by
  induction l generalizing init with
  | nil => exact le_refl _
  | cons a l ih => exact le_trans (le_max_left _ _) (ih _)

theorem le_foldl_max_of_mem (f : ℤ × ℤ → ℤ) (l : List (ℤ × ℤ)) (init : ℤ)
    (x : ℤ × ℤ) (hx : x ∈ l) :
    f x ≤ l.foldl (fun m q => max m (f q)) init := by
  induction l generalizing init with
  | nil => cases hx
  | cons a l ih =>
    rcases List.mem_cons.mp hx with h | h
    · subst h
      exact le_trans (le_max_right _ _) (init_le_foldl_max f l _)
    · exact ih _ h

/-- Bound over a nonempty point list in the shape `calculate_bounds` uses. -/
theorem foldl_min_le_of_mem_cons (f : ℤ × ℤ → ℤ) (hd : ℤ × ℤ) (tl : List (ℤ × ℤ))
    (x : ℤ × ℤ) (hx : x ∈ hd :: tl) :
    tl.foldl (fun m q => min m (f q)) (f hd) ≤ f x := by
  rcases List.mem_cons.mp hx with h | h
  · subst h; exact foldl_min_le_init f tl (f x)
  · exact foldl_min_le_of_mem f tl (f hd) x h

theorem le_foldl_max_of_mem_cons (f : ℤ × ℤ → ℤ) (hd : ℤ × ℤ) (tl : List (ℤ × ℤ))
    (x : ℤ × ℤ) (hx : x ∈ hd :: tl) :
    f x ≤ tl.foldl (fun m q => max m (f q)) (f hd) := by
  rcases List.mem_cons.mp hx with h | h
  · subst h; exact init_le_foldl_max f tl (f x)
  · exact le_foldl_max_of_mem f tl (f hd) x h

/-! ## Claim theorems -/

/-- C1: for every annotation saved to PDF the projected x and y equal the
stored creation-space x and y divided by `BASE_SCALE * created_at_zoom`
(for Text these are the universal values of source lines 41-42, before
the text-specific adjustments of C3), and for Image and Doodle the
projected width and height use the same divisor, so the inserted
rectangle is fully determined by that divisor.  The save path takes no
viewport-zoom input at all — its embedding has no such parameter — so
the divisor depends only on `created_at_zoom`. -/
theorem C1_universal_projection (a : Annot) :
    (text_projection a).base_pdf_x = a.x / (BASE_SCALE * a.created_at_zoom)
  ∧ (text_projection a).base_pdf_y = a.y / (BASE_SCALE * a.created_at_zoom)
  ∧ image_projection a =
      ⟨a.x / (BASE_SCALE * a.created_at_zoom),
       a.y / (BASE_SCALE * a.created_at_zoom),
       a.x / (BASE_SCALE * a.created_at_zoom) + a.width / (BASE_SCALE * a.created_at_zoom),
       a.y / (BASE_SCALE * a.created_at_zoom) + a.height / (BASE_SCALE * a.created_at_zoom)⟩
  ∧ doodle_projection a =
      ⟨a.x / (BASE_SCALE * a.created_at_zoom),
       a.y / (BASE_SCALE * a.created_at_zoom),
       a.x / (BASE_SCALE * a.created_at_zoom) + a.width / (BASE_SCALE * a.created_at_zoom),
       a.y / (BASE_SCALE * a.created_at_zoom) + a.height / (BASE_SCALE * a.created_at_zoom)⟩ :=
  ⟨rfl, rfl, rfl, rfl⟩

/-- C3: for every TextAnnotation saved to PDF the projector divides the
stored height by `BASE_SCALE` alone, computes
`rect_top = pdf_y - height_pdf + TEXT_ANNOTATION_Y_OFFSET / BASE_SCALE`,
places the baseline at `rect_top + height_pdf * 0.65`, and adds the
fixed horizontal padding `5 / BASE_SCALE` to the projected x. -/
theorem C3_text_baseline_projection (a : Annot) :
    (text_projection a).height_pdf = a.height / BASE_SCALE
  ∧ (text_projection a).rect_top
      = (text_projection a).base_pdf_y - (text_projection a).height_pdf
        + TEXT_ANNOTATION_Y_OFFSET / BASE_SCALE
  ∧ (text_projection a).baseline_y
      = (text_projection a).rect_top + (text_projection a).height_pdf * (65 / 100)
  ∧ (text_projection a).pdf_x = (text_projection a).base_pdf_x + 5 / BASE_SCALE :=
  ⟨rfl, rfl, rfl, rfl⟩

/-- C5: a resize step from the Left edge changes x and width by equal
and opposite creation-space amounts, leaving x + width (the Right edge)
unchanged, and a step from the Top edge likewise leaves y + height (the
Bottom edge) unchanged — at every step, whether or not the minimum-size
clamp fires, for every annotation, pointer delta and zoom. -/
theorem C5_opposite_edge_fixed (st : ResizeState) (ex ey : ℤ) (zoom_level : ℚ) :
    (resize_move st .left ex ey zoom_level).ann.x
        + (resize_move st .left ex ey zoom_level).ann.width
      = st.ann.x + st.ann.width
  ∧ (resize_move st .top ex ey zoom_level).ann.y
        + (resize_move st .top ex ey zoom_level).ann.height
      = st.ann.y + st.ann.height := by
  constructor <;> (dsimp only [resize_move]; split)
  · ring
  · rfl
  · ring
  · rfl

/-- C6: if an annotation's width and height both exceed
`MIN_ANNOTATION_SIZE`, every resize step preserves that property; the
new extent is applied only when it exceeds the minimum, and when the
clamp fires the whole state — size, position and the recorded previous
pointer position — is left exactly as it was. -/
theorem C6_min_size_clamp (st : ResizeState) (edge : ResizeEdge) (ex ey : ℤ)
    (zoom_level : ℚ)
    (hw : MIN_ANNOTATION_SIZE < st.ann.width)
    (hh : MIN_ANNOTATION_SIZE < st.ann.height) :
    (MIN_ANNOTATION_SIZE < (resize_move st edge ex ey zoom_level).ann.width
      ∧ MIN_ANNOTATION_SIZE < (resize_move st edge ex ey zoom_level).ann.height)
  ∧ (resize_move st edge ex ey zoom_level = st
      ∨ (resize_move st edge ex ey zoom_level).resize_start_pos = (ex, ey)) := by
  cases edge <;> (dsimp only [resize_move]; split) <;>
    first
      | exact ⟨⟨by assumption, by assumption⟩, Or.inr rfl⟩
      | exact ⟨⟨hw, hh⟩, Or.inl rfl⟩

theorem C6_min_size_clamp_witness :
    (MIN_ANNOTATION_SIZE < c6_state.ann.width
      ∧ MIN_ANNOTATION_SIZE < c6_state.ann.height)
  ∧ ((MIN_ANNOTATION_SIZE < (resize_move c6_state .right 5 5 1).ann.width
        ∧ MIN_ANNOTATION_SIZE < (resize_move c6_state .right 5 5 1).ann.height)
      ∧ (resize_move c6_state .right 5 5 1 = c6_state
          ∨ (resize_move c6_state .right 5 5 1).resize_start_pos = (5, 5))) :=
  ⟨⟨by decide, by decide⟩,
   C6_min_size_clamp c6_state .right 5 5 1 (by decide) (by decide)⟩

/-- C7: a drag step writes `(event - drag_offset) / zoom_ratio` into x
and y and changes nothing else: created_at_zoom, width, height, page
index and the variant payload are all untouched. -/
theorem C7_drag_updates_position_only (a : Annot) (off : ℤ × ℤ) (ex ey : ℤ)
    (zoom_level : ℚ) :
    (drag_move a off ex ey zoom_level).x
        = ((ex : ℚ) - (off.1 : ℚ)) / (zoom_level / a.created_at_zoom)
  ∧ (drag_move a off ex ey zoom_level).y
        = ((ey : ℚ) - (off.2 : ℚ)) / (zoom_level / a.created_at_zoom)
  ∧ (drag_move a off ex ey zoom_level).created_at_zoom = a.created_at_zoom
  ∧ (drag_move a off ex ey zoom_level).width = a.width
  ∧ (drag_move a off ex ey zoom_level).height = a.height
  ∧ (drag_move a off ex ey zoom_level).page_num = a.page_num
  ∧ (drag_move a off ex ey zoom_level).kind = a.kind := by
  refine ⟨?_, ?_, rfl, rfl, rfl, rfl, rfl⟩ <;> (dsimp only [drag_move]; push_cast; ring_nf)

/-- C10: when either dimension argument of an Image or Doodle
construction is omitted (None), both dimensions come from the defaults
(native pixmap size, resp. computed doodle bounds), so a single supplied
dimension is ignored as well; only when both are supplied are they
used. -/
theorem C10_dimension_defaults (x y : ℚ) (path : String) (pw ph page_num : ℤ)
    (w h : ℚ) (strokes : List Stroke) :
    ((image_annot_mk x y path pw ph page_num (some w) none).width = (pw : ℚ)
      ∧ (image_annot_mk x y path pw ph page_num (some w) none).height = (ph : ℚ))
  ∧ ((image_annot_mk x y path pw ph page_num none (some h)).width = (pw : ℚ)
      ∧ (image_annot_mk x y path pw ph page_num none (some h)).height = (ph : ℚ))
  ∧ ((image_annot_mk x y path pw ph page_num none none).width = (pw : ℚ)
      ∧ (image_annot_mk x y path pw ph page_num none none).height = (ph : ℚ))
  ∧ ((image_annot_mk x y path pw ph page_num (some w) (some h)).width = w
      ∧ (image_annot_mk x y path pw ph page_num (some w) (some h)).height = h)
  ∧ ((doodle_annot_mk x y page_num strokes (some w) none).width
        = ((calculate_bounds strokes).1 : ℚ)
      ∧ (doodle_annot_mk x y page_num strokes (some w) none).height
        = ((calculate_bounds strokes).2 : ℚ))
  ∧ ((doodle_annot_mk x y page_num strokes none (some h)).width
        = ((calculate_bounds strokes).1 : ℚ)
      ∧ (doodle_annot_mk x y page_num strokes none (some h)).height
        = ((calculate_bounds strokes).2 : ℚ))
  ∧ ((doodle_annot_mk x y page_num strokes (some w) (some h)).width = w
      ∧ (doodle_annot_mk x y page_num strokes (some w) (some h)).height = h) :=
  ⟨⟨rfl, rfl⟩, ⟨rfl, rfl⟩, ⟨rfl, rfl⟩, ⟨rfl, rfl⟩, ⟨rfl, rfl⟩, ⟨rfl, rfl⟩, ⟨rfl, rfl⟩⟩

/-- C4 counterexample: with no other files present, a failing
`insert_image` leaves the temporary doodle PNG on disk — the claim that
the transient resource is always released, including when insertion
fails, is false at this input (the unlink sits after the insertion
inside the same try block, so the exception skips it). -/
theorem C4_temp_file_leak_counterexample :
    doodle_save_files [] "doodle_tmp.png" (.err "insert failed") = ["doodle_tmp.png"] :=
  rfl

/-- C4 (amended): the temporary PNG written for a DoodleAnnotation is
deleted when `insert_image` succeeds, but when the insertion raises, the
exception handler is entered before `os.unlink` runs and the temporary
file is left behind. -/
theorem C4_temp_file_release (fs : List String) (temp_path msg : String) :
    doodle_save_files fs temp_path .ok = fs
  ∧ temp_path ∈ doodle_save_files fs temp_path (.err msg) := by
  constructor
  · simp [doodle_save_files]
  · simp [doodle_save_files]

/-- C2 counterexample: two overlapping annotations both contain the
point (5,5) at zoom 1, yet the hit-test of
`PDFViewLabel.mousePressEvent` (which iterates `self.annotations` in
forward insertion order) selects the earlier-inserted one — the claim
that hit-testing iterates in reverse insertion order and returns the
later-inserted annotation is false on this path. -/
theorem C2_press_hit_counterexample :
    contains_point metrics0 hitA1 5 5 1 = true
  ∧ contains_point metrics0 hitA2 5 5 1 = true
  ∧ hitA1 ≠ hitA2
  ∧ press_hit metrics0 [hitA1, hitA2] 5 5 1 = some hitA1 := by
  refine ⟨?_, ?_, by simp [hitA1, hitA2], ?_⟩ <;>
    norm_num [press_hit, List.find?, contains_point, get_rect, QRect.contains,
      Annot.scaled_position, Annot.zoom_ratio, hitA1, hitA2, pyInt]

/-- C2 (amended): `AnnotationManager.find_annotation_at_point` iterates
the page's annotations in reverse insertion order and returns the first
(i.e. last-inserted) one whose display rectangle contains the point —
equivalently the last containing annotation in insertion order — and an
empty list yields none; `PDFViewLabel.mousePressEvent`, however,
iterates in forward insertion order, so on overlap it selects the
first-inserted containing annotation. -/
theorem C2_hit_test_order (M : FontMetrics) (anns : List Annot)
    (px py page_num : ℤ) (zoom_level : ℚ) :
    find_annotation_at_point M anns px py page_num zoom_level
      = ((get_annotations_for_page anns page_num).filter
          (fun a => contains_point M a px py zoom_level)).getLast?
  ∧ press_hit M anns px py zoom_level
      = (anns.filter (fun a => contains_point M a px py zoom_level)).head?
  ∧ find_annotation_at_point M [] px py page_num zoom_level = none
  ∧ press_hit M [] px py zoom_level = none :=
  ⟨reverse_find?_eq_getLast?_filter _ _, find?_eq_head?_filter _ _, rfl, rfl⟩

/-- C8 counterexample: `TextAnnotation.__init__` performs no validation:
constructing with font size 1000 (far above `MAX_FONT_SIZE`) and a color
component of 300 (outside 0-255) succeeds and stores those values
verbatim, with `created_at_zoom` silently set to 1.0 — construction does
not fail with a validation error as the claim requires. -/
theorem C8_unvalidated_construction_counterexample :
    (text_annot_mk metrics0 0 0 "hi" 0 "Arial" 1000 false false false false
        (300, 0, 0)).kind
      = .text ⟨"hi", "Arial", 1000, false, false, false, false, (300, 0, 0)⟩
  ∧ (text_annot_mk metrics0 0 0 "hi" 0 "Arial" 1000 false false false false
        (300, 0, 0)).created_at_zoom = 1
  ∧ ¬ ((1000 : ℤ) ≤ MAX_FONT_SIZE)
  ∧ ¬ ((300 : ℤ) ≤ 255) :=
  ⟨rfl, rfl, by decide, by decide⟩

/-- C8 (amended): validation happens in `TextFormat.__post_init__`, not
in annotation construction: `TextFormat` fails with a descriptive
ValueError exactly when the font size is outside
`[MIN_FONT_SIZE, MAX_FONT_SIZE]` or some color component is outside
0-255, while `TextAnnotation.__init__` accepts any font size and color
unchecked and `created_zoom` is initialized to 1.0 with no positivity
check anywhere. -/
theorem C8_validation_in_text_format_only (fs : ℤ) (c : ℤ × ℤ × ℤ)
    (M : FontMetrics) (x y : ℚ) (text : String) (page_num : ℤ) (ff : String)
    (b i u s : Bool) :
    (text_format_validation fs c = .ok () ↔
      (MIN_FONT_SIZE ≤ fs ∧ fs ≤ MAX_FONT_SIZE ∧ 0 ≤ c.1 ∧ c.1 ≤ 255
        ∧ 0 ≤ c.2.1 ∧ c.2.1 ≤ 255 ∧ 0 ≤ c.2.2 ∧ c.2.2 ≤ 255))
  ∧ (text_annot_mk M x y text page_num ff fs b i u s c).kind
      = .text ⟨text, ff, fs, b, i, u, s, c⟩
  ∧ (text_annot_mk M x y text page_num ff fs b i u s c).created_at_zoom = 1
  ∧ (text_annot_mk M x y text page_num ff fs b i u s c).x = x
  ∧ (text_annot_mk M x y text page_num ff fs b i u s c).page_num = page_num := by
  refine ⟨?_, rfl, rfl, rfl, rfl⟩
  unfold text_format_validation
  split_ifs with h1 h2 h3 h4 <;> simp_all

/-- C9: Doodle bounds are
`max(100, maxX - minX + 2 * DOODLE_PADDING)` by
`max(100, maxY - minY + 2 * DOODLE_PADDING)` over all stroke points: a
single-point stroke list and an empty stroke list both yield exactly the
100x100 floor, and for any two points p, q of the strokes each bound is
at least the corresponding spread plus twice the padding (so a stroke
spanning (0,0)-(50,80) yields at least 70 by 100). -/
theorem C9_doodle_bounds (strokes : List Stroke) (p q : ℤ × ℤ)
    (hp : p ∈ all_points strokes) (hq : q ∈ all_points strokes) :
    (∀ a b cl w, calculate_bounds [⟨[(a, b)], cl, w⟩] = (100, 100))
  ∧ calculate_bounds [] = (100, 100)
  ∧ (100 ≤ (calculate_bounds strokes).1
      ∧ p.1 - q.1 + DOODLE_PADDING * 2 ≤ (calculate_bounds strokes).1
      ∧ 100 ≤ (calculate_bounds strokes).2
      ∧ p.2 - q.2 + DOODLE_PADDING * 2 ≤ (calculate_bounds strokes).2) := by
  refine ⟨?_, rfl, ?_⟩
  · intro a b cl w
    simp [calculate_bounds, all_points, DOODLE_PADDING]
  · have hne : strokes.isEmpty = false := by
      cases strokes with
      | nil => simp [all_points] at hp
      | cons s ss => rfl
    rcases hpts : all_points strokes with _ | ⟨hd, tl⟩
    · rw [hpts] at hp; cases hp
    · rw [hpts] at hp hq
      have hcb : calculate_bounds strokes
          = (max 100 (tl.foldl (fun m r => max m r.1) hd.1
                - tl.foldl (fun m r => min m r.1) hd.1 + DOODLE_PADDING * 2),
             max 100 (tl.foldl (fun m r => max m r.2) hd.2
                - tl.foldl (fun m r => min m r.2) hd.2 + DOODLE_PADDING * 2)) := by
        simp only [calculate_bounds, hne, hpts]
        simp
      rw [hcb]
      refine ⟨le_max_left _ _, ?_, le_max_left _ _, ?_⟩
      · have hmax := le_foldl_max_of_mem_cons Prod.fst hd tl p hp
        have hmin := foldl_min_le_of_mem_cons Prod.fst hd tl q hq
        exact le_trans (by linarith) (le_max_right _ _)
      · have hmax := le_foldl_max_of_mem_cons Prod.snd hd tl p hp
        have hmin := foldl_min_le_of_mem_cons Prod.snd hd tl q hq
        exact le_trans (by linarith) (le_max_right _ _)

theorem C9_doodle_bounds_witness :
    ((50, 80) ∈ all_points c9_strokes ∧ (0, 0) ∈ all_points c9_strokes)
  ∧ ((∀ a b cl w, calculate_bounds [⟨[(a, b)], cl, w⟩] = (100, 100))
      ∧ calculate_bounds [] = (100, 100)
      ∧ (100 ≤ (calculate_bounds c9_strokes).1
          ∧ 50 - 0 + DOODLE_PADDING * 2 ≤ (calculate_bounds c9_strokes).1
          ∧ 100 ≤ (calculate_bounds c9_strokes).2
          ∧ 80 - 0 + DOODLE_PADDING * 2 ≤ (calculate_bounds c9_strokes).2)) :=
  ⟨⟨by decide, by decide⟩,
   C9_doodle_bounds c9_strokes (50, 80) (0, 0) (by decide) (by decide)⟩

end AmarPDF
